import Mathlib

/-!
Verification of the claude-code-skills policy hooks.

The repository consists of seven small Python scripts: five policy hooks
(enforce-gitops-kubectl.py, enforce-safe-destroy.py, enforce-safe-commit.py,
enforce-branch-prefix.py, protect-files.py), a best-effort formatter hook
(auto-format.py) and a skill resolver (resolve.py).  All of them are pure
functions of their standard-input payload (plus, for the last two, a small
amount of environment/filesystem state which we model explicitly), so they
admit a direct shallow embedding.

The hooks classify commands with Python `re.search` over a fixed family of
patterns.  We embed exactly the regex features those patterns use (literals,
classes, concatenation, alternation, greedy star, word boundary, `^`, `$`,
one negative lookahead) with Python's backtracking preference order, so that
capture-group extraction (`match.group(0)` / `group(1)`) coincides with
CPython's leftmost-then-backtracking-priority semantics.  All searching is
case-insensitive, mirroring the universal `re.IGNORECASE` flag in the source:
input characters are lowered before comparison, while the consumed text keeps
the original characters (as `match.group` does).  Characters are assumed
ASCII, as all the source patterns and realistic inputs are; Python's
Unicode-aware `\w`/`\s` coincide with the ASCII versions there.
-/

/-- Python `\s` (ASCII range). -/
def isPySpace (c : Char) : Bool :=
  c = ' ' || c = '\t' || c = '\n' || c = '\r' || c = '\x0b' || c = '\x0c'

/-- Python `\w` (ASCII range): letters, digits, underscore. -/
def isWordChar (c : Char) : Bool :=
  c.isAlphanum || c = '_'

/-- Regular-expression abstract syntax: exactly the constructs appearing in the
hooks' patterns. `bnd` is the word boundary `\b`, `bos` is `^`, `eos` is `$`,
`nla` is a negative lookahead `(?!...)`. -/
inductive RE : Type where
  | eps : RE
  | chr : Char → RE
  | cls : (Char → Bool) → RE
  | cat : RE → RE → RE
  | alt : RE → RE → RE
  | star : RE → RE
  | bos : RE
  | eos : RE
  | bnd : RE
  | nla : RE → RE

/-- A matcher state: the character just before the current position (for `\b`
and `^`), the characters consumed so far by the current (sub)pattern in
reverse order (for capture groups), and the remaining input. -/
structure MSt where
  prev : Option Char
  cons : List Char
  rest : List Char

/-- Python `\b`: true when exactly one side of the position is a word char. -/
def wordBoundary (prev : Option Char) (rest : List Char) : Bool :=
  let a := match prev with
    | some c => isWordChar c
    | none => false
  let b := match rest with
    | c :: _ => isWordChar c
    | [] => false
  a != b

/-- One level of matching.  Results are produced in Python's backtracking
preference order: alternation is left-biased, star is greedy (more iterations
first).  `rec` performs the next star iteration; it is instantiated with a
fuel-decremented matcher in `mrun`.  Character tests are performed on the
lowered character (`re.IGNORECASE`), while the consumed list records the
original character. -/
def mstep (rec : RE → MSt → List MSt) : RE → MSt → List MSt
  | RE.eps, st => [st]
  | RE.chr c, st =>
    match st.rest with
    | [] => []
    | a :: t => if a.toLower = c then [⟨some a, a :: st.cons, t⟩] else []
  | RE.cls f, st =>
    match st.rest with
    | [] => []
    | a :: t => if f a.toLower then [⟨some a, a :: st.cons, t⟩] else []
  | RE.cat r1 r2, st => (mstep rec r1 st).flatMap (fun st2 => mstep rec r2 st2)
  | RE.alt r1 r2, st => mstep rec r1 st ++ mstep rec r2 st
  | RE.star r1, st =>
    ((mstep rec r1 st).flatMap (fun st2 => rec (RE.star r1) st2)) ++ [st]
  | RE.bos, st => if st.prev.isNone then [st] else []
  | RE.eos, st => if st.rest.isEmpty || st.rest = ['\n'] then [st] else []
  | RE.bnd, st => if wordBoundary st.prev st.rest then [st] else []
  | RE.nla r1, st => if (mstep rec r1 st).isEmpty then [st] else []

/-- Fuelled matcher.  Every starred subpattern in the hooks consumes at least
one character per iteration, so fuel `rest.length + 1` (used by the searching
wrappers below) never truncates the search. -/
def mrun : Nat → RE → MSt → List MSt
  | 0, _, _ => []
  | n + 1, r, st => mstep (mrun n) r st

/-- Does `r` match starting exactly at the position described by `(prev, rest)`? -/
def reMatchesAt (r : RE) (prev : Option Char) (rest : List Char) : Bool :=
  !(mrun (rest.length + 1) r ⟨prev, [], rest⟩).isEmpty

/-- Scan left to right (the semantics of `re.search`). -/
def searchAux (r : RE) : Option Char → List Char → Bool
  | p, [] => reMatchesAt r p []
  | p, c :: t => reMatchesAt r p (c :: t) || searchAux r (some c) t

/-- `re.search(r, s, re.IGNORECASE) is not None`. -/
def reSearch (r : RE) (s : String) : Bool :=
  searchAux r none s.toList

/-- The Python-preferred match of `cat pre grp` at one position: enumerate the
states of `pre` in preference order and, for each, take the first state of
`grp`; the first overall success is the match.  Returns the characters
consumed by `pre` and by `grp` (in order). -/
def firstMatchAt (pre grp : RE) (p : Option Char) (rest : List Char) :
    Option (List Char × List Char) :=
  (mrun (rest.length + 1) pre ⟨p, [], rest⟩).findSome? (fun st1 =>
    (mrun (st1.rest.length + 1) grp ⟨st1.prev, [], st1.rest⟩).head?.map
      (fun st2 => (st1.cons.reverse, st2.cons.reverse)))

/-- Leftmost scan for `firstMatchAt`. -/
def searchGroupAux (pre grp : RE) : Option Char → List Char → Option (List Char × List Char)
  | p, [] => firstMatchAt pre grp p []
  | p, c :: t =>
    match firstMatchAt pre grp p (c :: t) with
    | some r => some r
    | none => searchGroupAux pre grp (some c) t

/-- `re.search` for a pattern of the shape `pre(grp)` (all the capturing
patterns in the hooks have their single group at the end).  Returns
`(match.group(0), match.group(1))`. -/
def reSearchGroup (pre grp : RE) (s : String) : Option (String × String) :=
  (searchGroupAux pre grp none s.toList).map
    (fun pr => (String.mk (pr.1 ++ pr.2), String.mk pr.2))

/-- Concatenation of a list of regexes. -/
def catl (rs : List RE) : RE :=
  rs.foldr RE.cat RE.eps

/-- Literal string (the pattern is written lowercase; matching lowers input). -/
def rstr (s : String) : RE :=
  catl (s.toList.map RE.chr)

/-- `r+`. -/
def rplus (r : RE) : RE :=
  RE.cat r (RE.star r)

/-- `r?` (greedy: presence preferred). -/
def ropt (r : RE) : RE :=
  RE.alt r RE.eps

/-- `\s`. -/
def wsp : RE := RE.cls isPySpace

/-- `\s+`. -/
def wsps : RE := rplus wsp

/-- `\s*`. -/
def wspStar : RE := RE.star wsp

/-- `.` (any char except newline). -/
def dotAny : RE := RE.cls (fun c => c != '\n')

/-- `.*`. -/
def dotStar : RE := RE.star dotAny

/-- `\S` and `[^\s]`. -/
def nonSpace : RE := RE.cls (fun c => !isPySpace c)

/-- `[a-z-]` under IGNORECASE (input is lowered before the test). -/
def lowAZdash : RE := RE.cls (fun c => ('a' ≤ c && c ≤ 'z') || c = '-')

/-- `\b`. -/
def wb : RE := RE.bnd

/-- `\bw\b` for a literal word `w`. -/
def wbw (w : String) : RE := catl [wb, rstr w, wb]

/-- `\ba\s+b\b` for a two-word phrase. -/
def wbw2 (a b : String) : RE := catl [wb, rstr a, wsps, rstr b, wb]

/-!
Common hook infrastructure.  Every hook reads a JSON payload from stdin of the
shape `{ tool_name, tool_input: { command } | { file_path } }`, read with
`.get(key, default)` so missing keys become `""`.  We model the parsed payload
as a structure holding both optional strings, and a failed `json.load`
(`json.JSONDecodeError`) as the `Except.error` case carrying the message
interpolated into the diagnostic.  A hook's observable behaviour is its exit
code plus the lines printed to stdout and stderr (one list entry per `print`).
-/

/-- Parsed stdin payload: `tool_name`, `tool_input.command`,
`tool_input.file_path` (each defaulting to `""` when absent). -/
structure Payload where
  tool_name : String
  command : String
  file_path : String
deriving DecidableEq

/-- Observable result of one hook run. -/
structure HookOut where
  exitCode : Nat
  stdout : List String
  stderr : List String
deriving DecidableEq

/-- Silent allow: `sys.exit(0)` with no output. -/
def out0 : HookOut := ⟨0, [], []⟩

/-- Exit 1 with the JSON diagnostic, shared by every script. -/
def parseFailOut (e : String) : HookOut :=
  ⟨1, [], ["Error parsing JSON input: " ++ e]⟩

/-!
enforce-safe-destroy.py
-/

/-- `DESTRUCTIVE_PATTERNS` from enforce-safe-destroy.py, in source order. -/
def DESTRUCTIVE_PATTERNS : List (RE × String) :=
  [ (catl [wb, rstr "git", wsps, rstr "reset", wsps, rstr "--hard", wb],
      "git reset --hard destroys uncommitted changes"),
    (catl [wb, rstr "git", wsps, rstr "clean", wsps, RE.chr '-',
        rplus (RE.cls (fun c => c = 'f' || c = 'd')), wb],
      "git clean permanently deletes untracked files"),
    (catl [wb, rstr "git", wsps, rstr "checkout", wsps, rstr "--", wsps, RE.chr '.'],
      "git checkout -- . discards all changes"),
    (catl [wb, rstr "git", wsps, rstr "restore", wsps, RE.chr '.'],
      "git restore . discards all changes"),
    (catl [wb, rstr "git", wsps, rstr "push", wsps, dotStar, rstr "--force", wb],
      "git push --force can overwrite remote history"),
    (catl [wb, rstr "git", wsps, rstr "push", wsps, dotStar, rstr "-f", wb],
      "git push -f can overwrite remote history"),
    (catl [wb, rstr "rm", wsps, rstr "-rf", wb],
      "rm -rf permanently deletes files"),
    (catl [wb, rstr "rm", wsps, rstr "-fr", wb],
      "rm -fr permanently deletes files"),
    (catl [wb, rstr "rm", wsps, dotStar, rstr "-r", dotStar, rstr "-f", wb],
      "rm with -rf permanently deletes files"),
    (catl [wb, rstr "docker", wsps, rstr "system", wsps, rstr "prune", wb],
      "docker system prune removes unused data"),
    (catl [wb, rstr "docker", wsps, rstr "volume", wsps, rstr "prune", wb],
      "docker volume prune removes volumes"),
    (catl [wb, rstr "kubectl", wsps, rstr "delete", wb],
      "kubectl delete removes resources") ]

/-- `--dry-run`, the first entry of the destroy hook's `ALLOW_PATTERNS`. -/
def reDryRunBare : RE := rstr "--dry-run"

/-- `-n\b`, the second entry of the destroy hook's `ALLOW_PATTERNS`
(commented in the source as a dry-run short form). -/
def reDashN : RE := catl [rstr "-n", wb]

/-- `ALLOW_PATTERNS` from enforce-safe-destroy.py. -/
def DESTROY_ALLOW_PATTERNS : List RE :=
  [reDryRunBare, reDashN]

/-- Block message of enforce-safe-destroy.py (one entry per `print`). -/
def destroyBlockMsg (reason : String) : List String :=
  [ "BLOCKED: Destructive command detected.",
    "",
    "Reason: " ++ reason,
    "",
    "Use the safe-destroy skill instead:",
    "  /safe-destroy",
    "",
    "The safe-destroy skill ensures:",
    "  - Lists what will be affected",
    "  - Shows what will be lost",
    "  - Suggests safer alternatives",
    "  - Requires explicit double confirmation" ]

/-- Main logic of enforce-safe-destroy.py. -/
def enforceSafeDestroy (inp : Except String Payload) : HookOut :=
  match inp with
  | Except.error e => parseFailOut e
  | Except.ok d =>
    if d.tool_name ≠ "Bash" ∨ d.command = "" then out0
    else if DESTROY_ALLOW_PATTERNS.any (fun r => reSearch r d.command) then out0
    else
      match DESTRUCTIVE_PATTERNS.find? (fun pr => reSearch pr.1 d.command) with
      | some pr => ⟨2, [], destroyBlockMsg pr.2⟩
      | none => out0

/-!
enforce-safe-commit.py
-/

/-- `COMMIT_PATTERNS` from enforce-safe-commit.py. -/
def COMMIT_PATTERNS : List RE :=
  [ catl [wb, rstr "git", wsps, rstr "commit", wb],
    catl [wb, rstr "git", wsps, dotStar, wb, rstr "commit", wb] ]

/-- `ALLOW_PATTERNS` from enforce-safe-commit.py. -/
def COMMIT_ALLOW_PATTERNS : List RE :=
  [ rstr "--dry-run",
    rstr "--no-commit",
    catl [rstr "git", wsps, rstr "log", dotStar, rstr "commit"],
    catl [rstr "git", wsps, rstr "show", dotStar, rstr "commit"],
    catl [rstr "git", wsps, rstr "rev-parse"] ]

/-- Block message of enforce-safe-commit.py. -/
def commitBlockMsg : List String :=
  [ "BLOCKED: Direct git commit is forbidden.",
    "",
    "Use the safe-commit skill instead:",
    "  /safe-commit",
    "",
    "The safe-commit skill ensures:",
    "  - Security scan (no secrets)",
    "  - Quality check (linting)",
    "  - Tests pass",
    "  - User approval",
    "  - Conventional commit format" ]

/-- Main logic of enforce-safe-commit.py. -/
def enforceSafeCommit (inp : Except String Payload) : HookOut :=
  match inp with
  | Except.error e => parseFailOut e
  | Except.ok d =>
    if d.tool_name ≠ "Bash" ∨ d.command = "" then out0
    else if COMMIT_ALLOW_PATTERNS.any (fun r => reSearch r d.command) then out0
    else if COMMIT_PATTERNS.any (fun r => reSearch r d.command) then ⟨2, [], commitBlockMsg⟩
    else out0

/-!
enforce-branch-prefix.py
-/

/-- The three `BRANCH_CREATE_PATTERNS`, split as (everything before the
capture group, the `(\S+)` group).  The second pattern carries the negative
lookahead `(?!-[dD])` (under IGNORECASE, `[dD]` is just `d` on lowered
input). -/
def BRANCH_CREATE_PATTERNS : List (RE × RE) :=
  [ (catl [wb, rstr "git", wsps, rstr "checkout", wsps, rstr "-b", wsps], rplus nonSpace),
    (catl [wb, rstr "git", wsps, rstr "branch", wsps,
        RE.nla (RE.cat (RE.chr '-') (RE.cls (fun c => c = 'd'))), wspStar], rplus nonSpace),
    (catl [wb, rstr "git", wsps, rstr "switch", wsps, rstr "-c", wsps], rplus nonSpace) ]

/-- `ALLOWED_BRANCHES` from enforce-branch-prefix.py. -/
def ALLOWED_BRANCHES : List String :=
  ["main", "master", "develop", "dev"]

/-- Block message of enforce-branch-prefix.py. -/
def branchBlockMsg (branch : String) : List String :=
  [ "BLOCKED: Branch name must start with 'mriley/'",
    "",
    "Invalid branch: " ++ branch,
    "Expected format: mriley/<type>/<description>",
    "",
    "Examples:",
    "  mriley/feat/new-feature",
    "  mriley/fix/bug-description",
    "  mriley/refactor/cleanup",
    "",
    "Use the manage-branch skill:",
    "  /manage-branch" ]

/-- Kernel-reducible `List.isPrefixOf` on characters (Python
`str.startswith`). -/
def charPrefix : List Char → List Char → Bool
  | [], _ => true
  | _ :: _, [] => false
  | p :: ps, c :: cs => p = c && charPrefix ps cs

/-- Python `s.startswith(pre)`. -/
def strStartsWith (s pre : String) : Bool :=
  charPrefix pre.toList s.toList

/-- The `for pattern in BRANCH_CREATE_PATTERNS` loop: first match whose branch
name is allow-listed exits 0; an un-prefixed branch name blocks; a
`mriley/`-prefixed name falls through to the remaining patterns. -/
def branchLoop : List (RE × RE) → String → HookOut
  | [], _ => out0
  | pr :: rest, cmd =>
    match reSearchGroup pr.1 pr.2 cmd with
    | none => branchLoop rest cmd
    | some g =>
      if g.2 ∈ ALLOWED_BRANCHES then out0
      else if !(strStartsWith g.2 "mriley/") then ⟨2, [], branchBlockMsg g.2⟩
      else branchLoop rest cmd

/-- Main logic of enforce-branch-prefix.py (`REQUIRED_PREFIX = "mriley/"`). -/
def enforceBranchHook (inp : Except String Payload) : HookOut :=
  match inp with
  | Except.error e => parseFailOut e
  | Except.ok d =>
    if d.tool_name ≠ "Bash" ∨ d.command = "" then out0
    else branchLoop BRANCH_CREATE_PATTERNS d.command

/-!
enforce-gitops-kubectl.py
-/

/-- `MUTATION_VERBS` from enforce-gitops-kubectl.py, in source order. -/
def MUTATION_VERBS : List RE :=
  [ wbw "apply", wbw "create", wbw "edit", wbw "patch", wbw "delete",
    wbw "replace", wbw "scale", wbw "autoscale",
    catl [wb, rstr "rollout", wsps,
      RE.alt (rstr "restart") (RE.alt (rstr "undo") (RE.alt (rstr "pause") (rstr "resume"))), wb],
    wbw "set", wbw "label", wbw "annotate", wbw "expose", wbw "run",
    wbw "drain", wbw "cordon", wbw "uncordon", wbw "taint", wbw "attach",
    wbw "exec", wbw "cp", wbw "port-forward" ]

/-- `IMPERATIVE_PATTERNS` from enforce-gitops-kubectl.py. -/
def IMPERATIVE_PATTERNS : List RE :=
  [ catl [wb, rstr "kubectl", wsps, dotStar, rstr "--force", wb],
    catl [wb, rstr "kubectl", wsps, dotStar, rstr "--grace-period=0", wb],
    catl [wb, rstr "kubectl", wsps, dotStar, rstr "--now", wb] ]

/-- `READ_ONLY_VERBS` from enforce-gitops-kubectl.py. -/
def READ_ONLY_VERBS : List RE :=
  [ wbw "get", wbw "describe", wbw "logs", wbw "explain", wbw "diff",
    wbw "api-resources", wbw "api-versions", wbw "version", wbw "cluster-info",
    wbw "top", wbw2 "auth" "can-i", wbw2 "config" "view",
    wbw2 "rollout" "status", wbw2 "rollout" "history", wbw "wait" ]

/-- `DRY_RUN_PATTERNS` from enforce-gitops-kubectl.py. -/
def DRY_RUN_PATTERNS : List RE :=
  [ catl [rstr "--dry-run", wb],
    catl [rstr "--dry-run=client", wb],
    catl [rstr "--dry-run=server", wb] ]

/-- `ARGOCD_PATTERNS` from enforce-gitops-kubectl.py.  The namespace
alternation `(argocd|argo-cd|argocd-system)` is left-biased like Python's. -/
def ARGOCD_PATTERNS : List RE :=
  [ catl [rstr "-n", wsps,
      RE.alt (rstr "argocd") (RE.alt (rstr "argo-cd") (rstr "argocd-system")), wb],
    catl [rstr "--namespace", rplus (RE.cls (fun c => c = '=' || isPySpace c)),
      RE.alt (rstr "argocd") (RE.alt (rstr "argo-cd") (rstr "argocd-system")), wb],
    catl [rstr "application", ropt (RE.chr 's'), RE.chr '.', rstr "argoproj", RE.chr '.', rstr "io"],
    catl [rstr "applicationset", ropt (RE.chr 's'), RE.chr '.', rstr "argoproj", RE.chr '.', rstr "io"],
    catl [rstr "appproject", ropt (RE.chr 's'), RE.chr '.', rstr "argoproj", RE.chr '.', rstr "io"],
    rstr "argocd/" ]

/-- `(^|[|;&]\s*)kubectl\b`. -/
def reKubectlTrigger : RE :=
  catl [RE.alt RE.bos (catl [RE.cls (fun c => c = '|' || c = ';' || c = '&'), wspStar]),
    rstr "kubectl", wb]

/-- The prefix shared by the verb-extraction regexes:
`\bkubectl\s+(?:(?:--?[^\s]+\s+)*)`. -/
def kubectlVerbPre : RE :=
  catl [wb, rstr "kubectl", wsps,
    RE.star (catl [RE.chr '-', ropt (RE.chr '-'), rplus nonSpace, wsps])]

/-- One-word verb group `([a-z-]+)` (used by `is_read_only`). -/
def kubectlVerbGrp1 : RE := rplus lowAZdash

/-- Two-word verb group `([a-z-]+(?:\s+[a-z-]+)?)` (used by `is_mutation` and
`extract_verb`). -/
def kubectlVerbGrp2 : RE :=
  catl [rplus lowAZdash, ropt (catl [wsps, rplus lowAZdash])]

/-- `is_kubectl_command` from enforce-gitops-kubectl.py. -/
def is_kubectl_command (command : String) : Bool :=
  reSearch reKubectlTrigger command

/-- `is_dry_run` from enforce-gitops-kubectl.py. -/
def is_dry_run (command : String) : Bool :=
  DRY_RUN_PATTERNS.any (fun r => reSearch r command)

/-- `is_read_only` from enforce-gitops-kubectl.py: extract the verb context
(`match.group(0)` of the one-word verb regex) and search the read-only verb
patterns inside it. -/
def is_read_only (command : String) : Bool :=
  match reSearchGroup kubectlVerbPre kubectlVerbGrp1 command with
  | none => false
  | some g => READ_ONLY_VERBS.any (fun r => reSearch r g.1)

/-- `is_mutation` from enforce-gitops-kubectl.py: mutation verbs are searched
in the two-word verb context, imperative patterns in the whole command; when
the verb regex finds nothing the function returns `False` without consulting
the imperative patterns. -/
def is_mutation (command : String) : Bool :=
  match reSearchGroup kubectlVerbPre kubectlVerbGrp2 command with
  | none => false
  | some g =>
    MUTATION_VERBS.any (fun r => reSearch r g.1)
      || IMPERATIVE_PATTERNS.any (fun r => reSearch r command)

/-- `extract_verb` from enforce-gitops-kubectl.py (`match.group(1)` of the
two-word verb regex, `"unknown"` when it finds nothing). -/
def extract_verb (command : String) : String :=
  match reSearchGroup kubectlVerbPre kubectlVerbGrp2 command with
  | some g => g.2
  | none => "unknown"

/-- `is_argocd_bootstrap` from enforce-gitops-kubectl.py. -/
def is_argocd_bootstrap (command : String) : Bool :=
  ARGOCD_PATTERNS.any (fun r => reSearch r command)

/-- `"=" * 70`. -/
def eqBanner : String := String.mk (List.replicate 70 '=')

/-- ArgoCD-bootstrap message of enforce-gitops-kubectl.py (printed before
`sys.exit(2)`). -/
def bootstrapMsg (verb : String) : List String :=
  [ "",
    eqBanner,
    "ARGOCD BOOTSTRAP DETECTED - OVERRIDE AVAILABLE",
    eqBanner,
    "",
    "Command: kubectl " ++ verb,
    "",
    "ArgoCD cannot sync itself - bootstrap exception applies.",
    "",
    "QUESTION: Is this a one-off or needed for future deployments?",
    "",
    "ONE-OFF (debugging, temporary, won't repeat):",
    "  Say \"one-off bootstrap\" to proceed with kubectl directly",
    "",
    "RECOVERY-NEEDED (new clusters, disaster recovery, repeatable):",
    "  1. Add command to scripts/bootstrap.sh (initial setup)",
    "  2. Add command to scripts/bootstrap-idempotent.sh (re-runnable)",
    "  3. Commit the bootstrap script changes",
    "  4. Then say \"bootstrap updated\" to proceed with kubectl",
    "",
    "IDEMPOTENT PATTERN EXAMPLE:",
    "  kubectl apply -f argocd/install.yaml || true",
    "  kubectl wait --for=condition=available deployment/argocd-server \\",
    "    -n argocd --timeout=300s",
    "",
    "For detailed bootstrap workflow, see:",
    "  gitops-apply skill > references/BOOTSTRAP-WORKFLOW.md",
    "",
    eqBanner,
    "" ]

/-- Standard GitOps block message of enforce-gitops-kubectl.py. -/
def gitopsBlockMsg (verb : String) : List String :=
  [ "",
    eqBanner,
    "KUBECTL MUTATION BLOCKED - GITOPS REQUIRED",
    eqBanner,
    "",
    "Command: kubectl " ++ verb,
    "",
    "Direct kubectl mutations are FORBIDDEN in this environment.",
    "All cluster changes MUST go through GitOps workflow.",
    "",
    "WHY: GitOps ensures:",
    "  - Auditable change history (git log)",
    "  - Peer review (pull requests)",
    "  - Rollback capability (git revert)",
    "  - Disaster recovery (git clone)",
    "  - Infrastructure as Code (declarative manifests)",
    "",
    "PROPER WORKFLOW:",
    "  1. Use the gitops-apply skill",
    "  2. Update manifest in git repository",
    "  3. Commit changes with conventional format",
    "  4. ArgoCD/Flux will sync to cluster",
    "",
    "To proceed with GitOps workflow, say:",
    "  'Use gitops-apply skill to make this change'",
    "",
    "READ-ONLY OPERATIONS (allowed):",
    "  kubectl get, describe, logs, explain, diff, top, etc.",
    "",
    "DRY-RUN OPERATIONS (allowed):",
    "  kubectl apply --dry-run=client",
    "  kubectl create --dry-run=server",
    "",
    eqBanner,
    "" ]

/-- Main logic of enforce-gitops-kubectl.py. -/
def enforceGitopsKubectl (inp : Except String Payload) : HookOut :=
  match inp with
  | Except.error e => parseFailOut e
  | Except.ok d =>
    if d.tool_name ≠ "Bash" ∨ d.command = "" then out0
    else if !is_kubectl_command d.command then out0
    else if is_dry_run d.command then out0
    else if is_read_only d.command then out0
    else if is_mutation d.command then
      if is_argocd_bootstrap d.command then
        ⟨2, [], bootstrapMsg (extract_verb d.command)⟩
      else
        ⟨2, [], gitopsBlockMsg (extract_verb d.command)⟩
    else out0

/-!
protect-files.py
-/

/-- `os.path.basename` on POSIX: everything after the last `/`. -/
def basename (p : String) : String :=
  String.mk ((p.toList.reverse.takeWhile (fun c => c != '/')).reverse)

/-- `PROTECTED_PATTERNS` from protect-files.py, in source order.  Literal
letters are written lowercase because matching lowers the input
(`re.IGNORECASE`). -/
def PROTECTED_PATTERNS : List (RE × String) :=
  [ (catl [rstr ".env", RE.alt RE.eos (RE.chr '.')], "Environment files contain secrets"),
    (catl [rstr ".env.local", RE.eos], "Local environment files contain secrets"),
    (catl [rstr ".env.", dotStar, RE.eos], "Environment files contain secrets"),
    (catl [rstr "package-lock.json", RE.eos], "Lock file is auto-generated"),
    (catl [rstr "yarn.lock", RE.eos], "Lock file is auto-generated"),
    (catl [rstr "pnpm-lock.yaml", RE.eos], "Lock file is auto-generated"),
    (catl [rstr "cargo.lock", RE.eos], "Lock file is auto-generated"),
    (catl [rstr "poetry.lock", RE.eos], "Lock file is auto-generated"),
    (catl [rstr "go.sum", RE.eos], "Lock file is auto-generated"),
    (catl [rstr "gemfile.lock", RE.eos], "Lock file is auto-generated"),
    (rstr ".git/", "Git internal files should not be edited"),
    (catl [rstr ".git", RE.eos], "Git internal files should not be edited"),
    (rstr ".ssh/", "SSH keys are sensitive"),
    (rstr "id_rsa", "SSH private keys are sensitive"),
    (catl [rstr ".pem", RE.eos], "Certificate files are sensitive"),
    (catl [rstr ".key", RE.eos], "Key files are sensitive") ]

/-- `ALLOWED_PATTERNS` from protect-files.py. -/
def FILE_ALLOWED_PATTERNS : List RE :=
  [ catl [rstr ".env.example", RE.eos],
    catl [rstr ".env.sample", RE.eos],
    catl [rstr ".env.template", RE.eos] ]

/-- Block message of protect-files.py. -/
def protectBlockMsg (fp reason : String) : List String :=
  [ "BLOCKED: Protected file modification.",
    "",
    "File: " ++ fp,
    "Reason: " ++ reason,
    "",
    "If you need to edit this file:",
    "  1. Consider if it's truly necessary",
    "  2. Edit manually outside of Claude",
    "  3. Or request explicit override" ]

/-- Main logic of protect-files.py: exceptions are checked (on the basename
and on the full path) before the protected patterns. -/
def protectFiles (inp : Except String Payload) : HookOut :=
  match inp with
  | Except.error e => parseFailOut e
  | Except.ok d =>
    if (d.tool_name ≠ "Edit" ∧ d.tool_name ≠ "Write") ∨ d.file_path = "" then out0
    else
      let nm := basename d.file_path
      if FILE_ALLOWED_PATTERNS.any (fun r => reSearch r nm || reSearch r d.file_path) then out0
      else
        match PROTECTED_PATTERNS.find? (fun pr => reSearch pr.1 nm || reSearch pr.1 d.file_path) with
        | some pr => ⟨2, [], protectBlockMsg d.file_path pr.2⟩
        | none => out0

/-!
auto-format.py

The formatter hook consults the environment: whether the target file exists,
whether the formatter executable is on `PATH` (`shutil.which`), and the
outcome of `subprocess.run` (normal completion with a return code, a
`TimeoutExpired`, or some other exception).  We model those three effects as
an explicit environment record; the hook is a pure function of payload and
environment.
-/

/-- Outcome of `subprocess.run(cmd, capture_output=True, timeout=30)`. -/
inductive RunOutcome where
  | completed (returncode : Nat) (stdoutText stderrText : String)
  | timedOut
  | raised (msg : String)

/-- Environment effects used by auto-format.py. -/
structure FmtEnv where
  fileOnDisk : String → Bool
  whichOk : String → Bool
  runFormatter : List String → RunOutcome

/-- `FORMATTERS` from auto-format.py: extension to (command, args). -/
def FORMATTERS : List (String × String × List String) :=
  [ (".ts", "npx", ["prettier", "--write"]),
    (".tsx", "npx", ["prettier", "--write"]),
    (".js", "npx", ["prettier", "--write"]),
    (".jsx", "npx", ["prettier", "--write"]),
    (".json", "npx", ["prettier", "--write"]),
    (".css", "npx", ["prettier", "--write"]),
    (".scss", "npx", ["prettier", "--write"]),
    (".md", "npx", ["prettier", "--write"]),
    (".yaml", "npx", ["prettier", "--write"]),
    (".yml", "npx", ["prettier", "--write"]),
    (".go", "gofmt", ["-w"]),
    (".py", "black", []) ]

/-- `SKIP_PATTERNS` from auto-format.py. -/
def SKIP_PATTERNS : List String :=
  ["node_modules", ".git", "vendor", "__pycache__", ".next", "dist", "build"]

/-- Is `needle` a substring of `hay` (Python `needle in hay`)? -/
def strHasSubstring (hay needle : String) : Bool :=
  go needle.toList hay.toList
where
  go (n : List Char) : List Char → Bool
    | [] => charPrefix n []
    | c :: t => charPrefix n (c :: t) || go n t

/-- Kernel-reducible `String.toLower`. -/
def lowerStr (s : String) : String :=
  String.mk (s.toList.map Char.toLower)

/-- The extension produced by `os.path.splitext(p)[1]`: the final component's
part from its last dot, unless every character before that dot is itself a
dot (so dotfiles like `.env` have no extension, while `foo.` has extension
`.`). -/
def extOf (p : String) : String :=
  let cs := (basename p).toList
  match cs.reverse.findIdx? (fun c => c = '.') with
  | none => ""
  | some j =>
    let i := cs.length - 1 - j
    if (cs.take i).any (fun c => c != '.') then String.mk (cs.drop i) else ""

/-- Main logic of auto-format.py: every branch after a successful payload
parse ends in `sys.exit(0)`; formatter failures only add diagnostics. -/
def autoFormat (inp : Except String Payload) (env : FmtEnv) : HookOut :=
  match inp with
  | Except.error e => parseFailOut e
  | Except.ok d =>
    if (d.tool_name ≠ "Edit" ∧ d.tool_name ≠ "Write") ∨ d.file_path = "" then out0
    else if SKIP_PATTERNS.any (fun pat => strHasSubstring d.file_path pat) then out0
    else if !env.fileOnDisk d.file_path then out0
    else
      match FORMATTERS.find? (fun f => f.1 = lowerStr (extOf d.file_path)) with
      | none => out0
      | some f =>
        if !env.whichOk f.2.1 then out0
        else
          match env.runFormatter (f.2.1 :: f.2.2 ++ [d.file_path]) with
          | RunOutcome.completed 0 _ _ => ⟨0, ["Formatted: " ++ d.file_path], []⟩
          | RunOutcome.completed _ _ errText => ⟨0, [], ["Format warning: " ++ errText]⟩
          | RunOutcome.timedOut => ⟨0, [], ["Format timeout: " ++ d.file_path]⟩
          | RunOutcome.raised m => ⟨0, [], ["Format error: " ++ m]⟩

/-!
skills/claude-skills-go/resolve.py

The resolver consults `manifest.json` and the skills directory.  We model the
manifest as parsed data (`load_manifest` supplies empty tables when the file
is missing, which is subsumed by a `Manifest` with empty lists; content-hint
keys are regexes — invalid ones are skipped by the source, and every value of
our `RE` type is valid) and the filesystem as a record of the three
operations the script performs: `skills_dir.glob(pattern)`, existence of
`skills_dir / pattern`, and reading a bounded prefix of the target file
(`get_file_content_sample`, which returns `""` for missing or unreadable
files).  Paths are modelled as strings; `sorted()` on `Path` values is
modelled as the lexicographic string order.
-/

/-- Parsed `manifest.json`. -/
structure Manifest where
  always : List String
  extensions : List (String × List String)
  paths : List (String × List String)
  content_hints : List (RE × List String)

/-- Filesystem operations used by resolve.py. -/
structure SkillsFS where
  glob : String → List String
  fileAt : String → Bool
  dirJoin : String → String
  contentSample : String → String

/-- `resolve_glob_patterns` from resolve.py: glob patterns (containing `*`)
expand via the filesystem, plain names resolve to `skills_dir / pattern` when
that file exists. -/
def resolve_glob_patterns (fs : SkillsFS) (patterns : List String) : List String :=
  patterns.flatMap (fun pat =>
    if pat.toList.contains '*' then fs.glob pat
    else if fs.fileAt pat then [fs.dirJoin pat] else [])

/-- `PurePath.suffix`: the final component's extension including the dot,
empty for names whose only dot is leading or trailing. -/
def pathSuffix (p : String) : String :=
  let cs := (basename p).toList
  match cs.reverse.findIdx? (fun c => c = '.') with
  | none => ""
  | some j =>
    let i := cs.length - 1 - j
    if 0 < i ∧ i + 1 < cs.length then String.mk (cs.drop i) else ""

/-- `fnmatch.fnmatch` on POSIX (case-sensitive): `*` matches any sequence,
`?` any single character; fuelled for kernel reducibility (fuel
`pattern.length + s.length + 1` never runs out, since every step shortens the
pattern or the input). -/
def fnmatchAux : Nat → List Char → List Char → Bool
  | 0, _, _ => false
  | n + 1, p, s =>
    match p, s with
    | [], [] => true
    | [], _ :: _ => false
    | '*' :: ps, s =>
      fnmatchAux n ps s ||
        (match s with
         | [] => false
         | _ :: t => fnmatchAux n ('*' :: ps) t)
    | '?' :: ps, _ :: t => fnmatchAux n ps t
    | _ :: _, [] => false
    | c :: ps, a :: t => c = a && fnmatchAux n ps t

/-- `fnmatch.fnmatch(s, pattern)`. -/
def fnmatchB (s pattern : String) : Bool :=
  fnmatchAux (pattern.length + s.length + 1) pattern.toList s.toList

/-- `matched_skills.add(skill_file)` guarded by `skill_file.suffix == ".md"`,
folded over one batch of resolved files (the set is modelled as a
duplicate-free list, newest first). -/
def addMD : List String → List String → List String
  | acc, [] => acc
  | acc, f :: rest =>
    addMD (if pathSuffix f = ".md" then (if f ∈ acc then acc else f :: acc) else acc) rest

/-- Phase 1 of `resolve_skills`: always-loaded skills. -/
def phaseAlways (fs : SkillsFS) : List String → List String → List String
  | acc, [] => acc
  | acc, pat :: rest => phaseAlways fs (addMD acc (resolve_glob_patterns fs [pat])) rest

/-- Phase 3 of `resolve_skills`: path-glob keyed skills. -/
def phasePaths (fs : SkillsFS) (target : String) :
    List String → List (String × List String) → List String
  | acc, [] => acc
  | acc, pr :: rest =>
    phasePaths fs target
      (if fnmatchB target pr.1 then addMD acc (resolve_glob_patterns fs pr.2) else acc) rest

/-- Phase 4 of `resolve_skills`: content-hint keyed skills. -/
def phaseHints (fs : SkillsFS) (content : String) :
    List String → List (RE × List String) → List String
  | acc, [] => acc
  | acc, pr :: rest =>
    phaseHints fs content
      (if reSearch pr.1 content then addMD acc (resolve_glob_patterns fs pr.2) else acc) rest

/-- `resolve_skills` from resolve.py: the four selection mechanisms in source
order, restricted to `.md` files, deduplicated (a Python set) and sorted. -/
def resolve_skills (fs : SkillsFS) (m : Manifest) (file_path : String) : List String :=
  let s1 := phaseAlways fs [] m.always
  let ext := lowerStr (pathSuffix file_path)
  let s2 := match m.extensions.find? (fun pr => pr.1 = ext) with
    | some pr => addMD s1 (resolve_glob_patterns fs pr.2)
    | none => s1
  let s3 := phasePaths fs file_path s2 m.paths
  let content := fs.contentSample file_path
  let s4 := if content ≠ "" then phaseHints fs content s3 m.content_hints else s3
  s4.insertionSort (· ≤ ·)

/-- `main` from resolve.py: usage error (exit 1) without a path argument,
otherwise print the resolved skills and return 0. -/
def resolverMain (argv : List String) (fs : SkillsFS) (m : Manifest) : Nat × List String :=
  match argv with
  | _ :: file_path :: _ => (0, resolve_skills fs m file_path)
  | _ => (1, [])

/-!
Claim theorems.
-/

/-- Claim C2, counterexample: the destructive-command hook does not warn-and-
allow; it blocks.  `rm -rf build/` and `git push origin main --force` both
exit 2, refuting the claimed exit status 0 and the claim that neither command
is blocked with exit 2. -/
theorem C2_counterexample :
    (enforceSafeDestroy (Except.ok ⟨"Bash", "rm -rf build/", ""⟩)).exitCode = 2 ∧
    (enforceSafeDestroy (Except.ok ⟨"Bash", "git push origin main --force", ""⟩)).exitCode = 2 := by
  decide

/-- Claim C2, amended: for `rm -rf build/` the destructive-command hook
blocks (exit 2) with a reason citing permanent deletion, and for
`git push origin main --force` it blocks (exit 2) citing history rewrite
risk; the reasons are delivered in the block explanation on stderr. -/
theorem C2_amended_thm :
    enforceSafeDestroy (Except.ok ⟨"Bash", "rm -rf build/", ""⟩)
      = ⟨2, [], destroyBlockMsg "rm -rf permanently deletes files"⟩ ∧
    enforceSafeDestroy (Except.ok ⟨"Bash", "git push origin main --force", ""⟩)
      = ⟨2, [], destroyBlockMsg "git push --force can overwrite remote history"⟩ := by
  decide

/-- Claim C7: in the branch-prefix domain, `git checkout -b feature-x` blocks
with exit 2 (missing the required `mriley/` prefix, named in the message),
`git checkout -b mriley/feat/x` is allowed silently with exit 0, and
`git checkout -b main` is allowed with exit 0 via the allow-listed branch
names, which are consulted before the prefix requirement. -/
theorem C7_thm :
    enforceBranchHook (Except.ok ⟨"Bash", "git checkout -b feature-x", ""⟩)
      = ⟨2, [], branchBlockMsg "feature-x"⟩ ∧
    enforceBranchHook (Except.ok ⟨"Bash", "git checkout -b mriley/feat/x", ""⟩) = out0 ∧
    enforceBranchHook (Except.ok ⟨"Bash", "git checkout -b main", ""⟩) = out0 := by
  decide

/-- Claim C10: any shell command matched by the destroy hook's allow pattern
`-n\b` — i.e. containing `-n` followed by a non-word character or the end of
the string — is allowed with exit 0 and no output, because `ALLOW_PATTERNS`
is consulted before `DESTRUCTIVE_PATTERNS`, whatever destructive patterns
also match. -/
theorem C10_thm (cmd : String) (h : reSearch reDashN cmd = true) :
    enforceSafeDestroy (Except.ok ⟨"Bash", cmd, ""⟩) = out0 := by
  have hall : (DESTROY_ALLOW_PATTERNS.any (fun r => reSearch r cmd)) = true := by
    simp [DESTROY_ALLOW_PATTERNS, h]
  by_cases hc : cmd = ""
  · simp [enforceSafeDestroy, hc]
  · simp [enforceSafeDestroy, hc, hall]

/-- Claim C10, witness: `kubectl delete pod foo -n prod` matches both the
destructive pattern `\bkubectl\s+delete\b` and the allow pattern `-n\b`, and
the hook allows it (exit 0, silent). -/
theorem C10_witness :
    reSearch reDashN "kubectl delete pod foo -n prod" = true ∧
    reSearch (DESTRUCTIVE_PATTERNS.get ⟨11, by decide⟩).1 "kubectl delete pod foo -n prod" = true ∧
    enforceSafeDestroy (Except.ok ⟨"Bash", "kubectl delete pod foo -n prod", ""⟩) = out0 :=
  ⟨by decide, by decide, C10_thm "kubectl delete pod foo -n prod" (by decide)⟩

/-- Claim C9: the formatter hook exits 0 for every Edit/Write file path under
every environment — whether the formatter is missing from `PATH`, completes
with a non-zero status, times out, or raises, the failure only produces
diagnostics and never changes the exit code. -/
theorem C9_thm (fp : String) (env : FmtEnv) :
    (autoFormat (Except.ok ⟨"Edit", "", fp⟩) env).exitCode = 0 ∧
    (autoFormat (Except.ok ⟨"Write", "", fp⟩) env).exitCode = 0 := by
  constructor <;>
    · simp only [autoFormat]
      repeat' split
      all_goals rfl

/-- Claim C1, counterexample: `kubectl apply -n argocd -f install.yaml` is a
kubectl mutation matching an ArgoCD bootstrap pattern, yet the hook exits 2,
not 0: `sys.exit(2)` sits after the bootstrap/standard message branch and is
reached in both cases. -/
theorem C1_counterexample :
    is_mutation "kubectl apply -n argocd -f install.yaml" = true ∧
    is_argocd_bootstrap "kubectl apply -n argocd -f install.yaml" = true ∧
    (enforceGitopsKubectl
      (Except.ok ⟨"Bash", "kubectl apply -n argocd -f install.yaml", ""⟩)).exitCode = 2 := by
  decide

/-- Claim C1, amended: a kubectl mutation that matches an ArgoCD bootstrap
pattern gets the override-available explanation on stderr but still exits 2
(a block), and the same mutation without ArgoCD context gets the standard
GitOps block message, also with exit 2. -/
theorem C1_amended_thm (cmd : String) (h0 : cmd ≠ "")
    (h1 : is_kubectl_command cmd = true) (h2 : is_dry_run cmd = false)
    (h3 : is_read_only cmd = false) (h4 : is_mutation cmd = true) :
    (is_argocd_bootstrap cmd = true →
      enforceGitopsKubectl (Except.ok ⟨"Bash", cmd, ""⟩)
        = ⟨2, [], bootstrapMsg (extract_verb cmd)⟩) ∧
    (is_argocd_bootstrap cmd = false →
      enforceGitopsKubectl (Except.ok ⟨"Bash", cmd, ""⟩)
        = ⟨2, [], gitopsBlockMsg (extract_verb cmd)⟩) := by
  constructor <;> intro h5 <;> simp [enforceGitopsKubectl, h0, h1, h2, h3, h4, h5]

/-- Claim C1, witness: the bootstrap command gets the override-available text
with exit 2, and the ArgoCD-free variant gets the standard block text with
exit 2. -/
theorem C1_witness :
    enforceGitopsKubectl (Except.ok ⟨"Bash", "kubectl apply -n argocd -f install.yaml", ""⟩)
      = ⟨2, [], bootstrapMsg (extract_verb "kubectl apply -n argocd -f install.yaml")⟩ ∧
    enforceGitopsKubectl (Except.ok ⟨"Bash", "kubectl apply -f install.yaml", ""⟩)
      = ⟨2, [], gitopsBlockMsg (extract_verb "kubectl apply -f install.yaml")⟩ :=
  ⟨(C1_amended_thm "kubectl apply -n argocd -f install.yaml"
      (by decide) (by decide) (by decide) (by decide) (by decide)).1 (by decide),
   (C1_amended_thm "kubectl apply -f install.yaml"
      (by decide) (by decide) (by decide) (by decide) (by decide)).2 (by decide)⟩

/-- Claim C3, counterexample: `git checkout -b feature-x --dry-run` carries
the escape-hatch marker `--dry-run` (an escape pattern of the destructive and
commit domains, which do allow the command), yet the branch-prefix domain — an
applicable shell-command domain with no dry-run escape rule — blocks it with
exit 2. -/
theorem C3_counterexample :
    reSearch reDryRunBare "git checkout -b feature-x --dry-run" = true ∧
    enforceSafeDestroy (Except.ok ⟨"Bash", "git checkout -b feature-x --dry-run", ""⟩) = out0 ∧
    enforceSafeCommit (Except.ok ⟨"Bash", "git checkout -b feature-x --dry-run", ""⟩) = out0 ∧
    (enforceBranchHook
      (Except.ok ⟨"Bash", "git checkout -b feature-x --dry-run", ""⟩)).exitCode = 2 := by
  decide

/-- Claim C3, amended: in the destructive-command, commit-gate and
kubectl-mutation domains, any command matching one of that domain's escape
patterns is allowed with exit 0 regardless of co-occurring gated, mutation or
destructive patterns — those domains evaluate their escape rules before
their gated rules.  The branch-prefix domain has no such textual escape rule
(its only escape is the allow-list applied to the captured branch name) and
may block a command carrying a dry-run marker. -/
theorem C3_amended_thm (cmd : String) :
    (DESTROY_ALLOW_PATTERNS.any (fun r => reSearch r cmd) = true →
      enforceSafeDestroy (Except.ok ⟨"Bash", cmd, ""⟩) = out0) ∧
    (COMMIT_ALLOW_PATTERNS.any (fun r => reSearch r cmd) = true →
      enforceSafeCommit (Except.ok ⟨"Bash", cmd, ""⟩) = out0) ∧
    (is_dry_run cmd = true →
      enforceGitopsKubectl (Except.ok ⟨"Bash", cmd, ""⟩) = out0) := by
  refine ⟨fun h1 => ?_, fun h2 => ?_, fun h3 => ?_⟩
  · by_cases hc : cmd = ""
    · simp [enforceSafeDestroy, hc]
    · simp [enforceSafeDestroy, hc, h1]
  · by_cases hc : cmd = ""
    · simp [enforceSafeCommit, hc]
    · simp [enforceSafeCommit, hc, h2]
  · by_cases hc : cmd = ""
    · simp [enforceGitopsKubectl, hc]
    · by_cases hk : is_kubectl_command cmd
      · simp [enforceGitopsKubectl, hc, hk, h3]
      · simp [enforceGitopsKubectl, hc, hk]

/-- Claim C3, witness: `kubectl delete ns foo --dry-run` matches every
domain's dry-run escape and is allowed by the destructive, commit and kubectl
domains even though `kubectl delete` is both a destructive pattern and a
mutation verb. -/
theorem C3_witness :
    enforceSafeDestroy (Except.ok ⟨"Bash", "kubectl delete ns foo --dry-run", ""⟩) = out0 ∧
    enforceSafeCommit (Except.ok ⟨"Bash", "kubectl delete ns foo --dry-run", ""⟩) = out0 ∧
    enforceGitopsKubectl (Except.ok ⟨"Bash", "kubectl delete ns foo --dry-run", ""⟩) = out0 :=
  ⟨(C3_amended_thm "kubectl delete ns foo --dry-run").1 (by decide),
   (C3_amended_thm "kubectl delete ns foo --dry-run").2.1 (by decide),
   (C3_amended_thm "kubectl delete ns foo --dry-run").2.2 (by decide)⟩

/-- Helper: the branch-pattern loop allows when no creation pattern matches. -/
theorem branchLoop_of_none (L : List (RE × RE)) (cmd : String)
    (h : ∀ pr ∈ L, reSearchGroup pr.1 pr.2 cmd = none) : branchLoop L cmd = out0 := by
  induction L with
  | nil => rfl
  | cons a t ih =>
    have ha := h a (by simp)
    simp only [branchLoop, ha]
    exact ih (fun pr hpr => h pr (by simp [hpr]))

/-- Helper: the branch-pattern loop either allows silently or blocks with
exit 2 and a non-empty explanation. -/
theorem branchLoop_cases (L : List (RE × RE)) (cmd : String) :
    branchLoop L cmd = out0 ∨
      ((branchLoop L cmd).exitCode = 2 ∧ (branchLoop L cmd).stderr ≠ []) := by
  induction L with
  | nil => left; rfl
  | cons a t ih =>
    simp only [branchLoop]
    split
    · exact ih
    · split
      · left; rfl
      · split
        · right; constructor <;> simp [branchBlockMsg]
        · exact ih

/-- Claim C5: on an unparseable payload every policy script (and the
formatter hook) exits 1 with the JSON diagnostic on stderr — never 2 — and a
successfully parsed payload either yields a silent allow (exit 0) or a block
(exit 2) accompanied by explanatory stderr text; so exit 2 arises only from a
policy block verdict, and the formatter hook never exits 2 at all. -/
theorem C5_thm :
    (∀ e, enforceGitopsKubectl (Except.error e) = parseFailOut e) ∧
    (∀ e, enforceSafeDestroy (Except.error e) = parseFailOut e) ∧
    (∀ e, enforceSafeCommit (Except.error e) = parseFailOut e) ∧
    (∀ e, enforceBranchHook (Except.error e) = parseFailOut e) ∧
    (∀ e, protectFiles (Except.error e) = parseFailOut e) ∧
    (∀ e env, autoFormat (Except.error e) env = parseFailOut e) ∧
    (∀ e, (parseFailOut e).exitCode = 1 ∧ (parseFailOut e).stderr ≠ []) ∧
    (∀ d, enforceGitopsKubectl (Except.ok d) = out0 ∨
      ((enforceGitopsKubectl (Except.ok d)).exitCode = 2 ∧
        (enforceGitopsKubectl (Except.ok d)).stderr ≠ [])) ∧
    (∀ d, enforceSafeDestroy (Except.ok d) = out0 ∨
      ((enforceSafeDestroy (Except.ok d)).exitCode = 2 ∧
        (enforceSafeDestroy (Except.ok d)).stderr ≠ [])) ∧
    (∀ d, enforceSafeCommit (Except.ok d) = out0 ∨
      ((enforceSafeCommit (Except.ok d)).exitCode = 2 ∧
        (enforceSafeCommit (Except.ok d)).stderr ≠ [])) ∧
    (∀ d, enforceBranchHook (Except.ok d) = out0 ∨
      ((enforceBranchHook (Except.ok d)).exitCode = 2 ∧
        (enforceBranchHook (Except.ok d)).stderr ≠ [])) ∧
    (∀ d, protectFiles (Except.ok d) = out0 ∨
      ((protectFiles (Except.ok d)).exitCode = 2 ∧
        (protectFiles (Except.ok d)).stderr ≠ [])) ∧
    (∀ inp env, (autoFormat inp env).exitCode ≠ 2) := by
  refine ⟨fun e => rfl, fun e => rfl, fun e => rfl, fun e => rfl, fun e => rfl,
    fun e env => rfl, fun e => ⟨rfl, by simp [parseFailOut]⟩, ?_, ?_, ?_, ?_, ?_, ?_⟩
  · intro d
    simp only [enforceGitopsKubectl]
    repeat' split
    all_goals first
      | (left; rfl)
      | (right; constructor <;> simp [bootstrapMsg, gitopsBlockMsg])
  · intro d
    simp only [enforceSafeDestroy]
    repeat' split
    all_goals first
      | (left; rfl)
      | (right; constructor <;> simp [destroyBlockMsg])
  · intro d
    simp only [enforceSafeCommit]
    repeat' split
    all_goals first
      | (left; rfl)
      | (right; constructor <;> simp [commitBlockMsg])
  · intro d
    simp only [enforceBranchHook]
    split
    · left; rfl
    · exact branchLoop_cases _ _
  · intro d
    simp only [protectFiles]
    repeat' split
    all_goals first
      | (left; rfl)
      | (right; constructor <;> simp [protectBlockMsg])
  · intro inp env
    cases inp with
    | error e => simp [autoFormat, parseFailOut]
    | ok d =>
      simp only [autoFormat]
      repeat' split
      all_goals simp [out0]

/-- Claim C6: classification is total and deterministic — each hook is a
function, so every invocation yields exactly one result — and conservative:
when no gated rule of a domain matches (the kubectl trigger is absent, no
destructive pattern matches, no commit pattern matches, no branch-creation
pattern matches, no protected pattern matches the name or path), the domain
allows with exit 0 regardless of the state of its escape rules. -/
theorem C6_thm (cmd fp : String) (hc : cmd ≠ "") (hf : fp ≠ "")
    (h1 : is_kubectl_command cmd = false)
    (h2 : DESTRUCTIVE_PATTERNS.all (fun pr => !reSearch pr.1 cmd) = true)
    (h3 : COMMIT_PATTERNS.all (fun r => !reSearch r cmd) = true)
    (h4 : BRANCH_CREATE_PATTERNS.all (fun pr => (reSearchGroup pr.1 pr.2 cmd).isNone) = true)
    (h5 : PROTECTED_PATTERNS.all
      (fun pr => !(reSearch pr.1 (basename fp) || reSearch pr.1 fp)) = true) :
    enforceGitopsKubectl (Except.ok ⟨"Bash", cmd, ""⟩) = out0 ∧
    enforceSafeDestroy (Except.ok ⟨"Bash", cmd, ""⟩) = out0 ∧
    enforceSafeCommit (Except.ok ⟨"Bash", cmd, ""⟩) = out0 ∧
    enforceBranchHook (Except.ok ⟨"Bash", cmd, ""⟩) = out0 ∧
    protectFiles (Except.ok ⟨"Edit", "", fp⟩) = out0 ∧
    protectFiles (Except.ok ⟨"Write", "", fp⟩) = out0 ∧
    (∀ inp, ∃! r, enforceGitopsKubectl inp = r) ∧
    (∀ inp, ∃! r, enforceSafeDestroy inp = r) ∧
    (∀ inp, ∃! r, enforceSafeCommit inp = r) ∧
    (∀ inp, ∃! r, enforceBranchHook inp = r) ∧
    (∀ inp, ∃! r, protectFiles inp = r) := by
  have hdfind : DESTRUCTIVE_PATTERNS.find? (fun pr => reSearch pr.1 cmd) = none := by
    rw [List.find?_eq_none]
    intro x hx
    have := List.all_eq_true.mp h2 x hx
    simpa using this
  have hcomm : (COMMIT_PATTERNS.any fun r => reSearch r cmd) = false := by
    rw [List.any_eq_false]
    intro x hx
    have := List.all_eq_true.mp h3 x hx
    simpa using this
  have hbr : ∀ pr ∈ BRANCH_CREATE_PATTERNS, reSearchGroup pr.1 pr.2 cmd = none := by
    intro x hx
    have := List.all_eq_true.mp h4 x hx
    simpa [Option.isNone_iff_eq_none] using this
  have hpfind : PROTECTED_PATTERNS.find?
      (fun pr => reSearch pr.1 (basename fp) || reSearch pr.1 fp) = none := by
    rw [List.find?_eq_none]
    intro x hx
    have := List.all_eq_true.mp h5 x hx
    simpa using this
  refine ⟨?_, ?_, ?_, ?_, ?_, ?_,
    fun inp => ⟨enforceGitopsKubectl inp, rfl, fun y hy => hy.symm⟩,
    fun inp => ⟨enforceSafeDestroy inp, rfl, fun y hy => hy.symm⟩,
    fun inp => ⟨enforceSafeCommit inp, rfl, fun y hy => hy.symm⟩,
    fun inp => ⟨enforceBranchHook inp, rfl, fun y hy => hy.symm⟩,
    fun inp => ⟨protectFiles inp, rfl, fun y hy => hy.symm⟩⟩
  · simp [enforceGitopsKubectl, hc, h1]
  · by_cases hal : (DESTROY_ALLOW_PATTERNS.any fun r => reSearch r cmd) = true
    · simp [enforceSafeDestroy, hc, hal]
    · simp [enforceSafeDestroy, hc, hal, hdfind]
  · by_cases hal : (COMMIT_ALLOW_PATTERNS.any fun r => reSearch r cmd) = true
    · simp [enforceSafeCommit, hc, hal]
    · simp [enforceSafeCommit, hc, hal, hcomm]
  · simp only [enforceBranchHook]
    rw [if_neg (by simp [hc])]
    exact branchLoop_of_none _ _ hbr
  · by_cases hal : (FILE_ALLOWED_PATTERNS.any
        fun r => reSearch r (basename fp) || reSearch r fp) = true
    · simp [protectFiles, hf, hal]
    · simp [protectFiles, hf, hal, hpfind]
  · by_cases hal : (FILE_ALLOWED_PATTERNS.any
        fun r => reSearch r (basename fp) || reSearch r fp) = true
    · simp [protectFiles, hf, hal]
    · simp [protectFiles, hf, hal, hpfind]

/-- Claim C6, witness: `echo hello` names no gated program and `src/main.c`
matches no protected pattern, so all five policy hooks allow them. -/
theorem C6_witness :
    enforceGitopsKubectl (Except.ok ⟨"Bash", "echo hello", ""⟩) = out0 ∧
    enforceSafeDestroy (Except.ok ⟨"Bash", "echo hello", ""⟩) = out0 ∧
    enforceSafeCommit (Except.ok ⟨"Bash", "echo hello", ""⟩) = out0 ∧
    enforceBranchHook (Except.ok ⟨"Bash", "echo hello", ""⟩) = out0 ∧
    protectFiles (Except.ok ⟨"Edit", "", "src/main.c"⟩) = out0 := by
  have h := C6_thm "echo hello" "src/main.c" (by decide) (by decide)
    (by decide) (by decide) (by decide) (by decide) (by decide)
  exact ⟨h.1, h.2.1, h.2.2.1, h.2.2.2.1, h.2.2.2.2.1⟩

/-- Claim C4: every Edit/Write file path matching a protected pattern (on its
basename or full path) without matching any allow-exception pattern is
blocked with exit 2 and an explanation, while the literal path `.env.example`
is allowed with exit 0 even though it matches the `.env` protected pattern,
because exception patterns are checked first. -/
theorem C4_thm (fp : String) (h0 : fp ≠ "")
    (hA : FILE_ALLOWED_PATTERNS.all
      (fun r => !(reSearch r (basename fp) || reSearch r fp)) = true)
    (hP : PROTECTED_PATTERNS.any
      (fun pr => reSearch pr.1 (basename fp) || reSearch pr.1 fp) = true) :
    ((protectFiles (Except.ok ⟨"Edit", "", fp⟩)).exitCode = 2 ∧
     (protectFiles (Except.ok ⟨"Write", "", fp⟩)).exitCode = 2 ∧
     (protectFiles (Except.ok ⟨"Edit", "", fp⟩)).stderr ≠ []) ∧
    protectFiles (Except.ok ⟨"Edit", "", ".env.example"⟩) = out0 ∧
    reSearch (catl [rstr ".env", RE.alt RE.eos (RE.chr '.')]) ".env.example" = true := by
  have hAany : (FILE_ALLOWED_PATTERNS.any
      fun r => reSearch r (basename fp) || reSearch r fp) = false := by
    rw [List.any_eq_false]
    intro x hx
    have := List.all_eq_true.mp hA x hx
    simpa using this
  have hPfind : ∃ pr, PROTECTED_PATTERNS.find?
      (fun pr => reSearch pr.1 (basename fp) || reSearch pr.1 fp) = some pr := by
    rw [← Option.isSome_iff_exists, List.find?_isSome]
    simpa using List.any_eq_true.mp hP
  obtain ⟨pr, hpr⟩ := hPfind
  refine ⟨⟨?_, ?_, ?_⟩, by decide, by decide⟩ <;>
    simp [protectFiles, h0, hAany, hpr, protectBlockMsg]

/-- Claim C4, witness: `.env` matches the protected environment-file pattern,
matches no exception, and is blocked by both Edit and Write with explanatory
text. -/
theorem C4_witness :
    (protectFiles (Except.ok ⟨"Edit", "", ".env"⟩)).exitCode = 2 ∧
    (protectFiles (Except.ok ⟨"Write", "", ".env"⟩)).exitCode = 2 ∧
    (protectFiles (Except.ok ⟨"Edit", "", ".env"⟩)).stderr ≠ [] := by
  have h := C4_thm ".env" (by decide) (by decide) (by decide)
  exact h.1

/-- Spec-side description of the always-loaded mechanism. -/
def mechAlways (fs : SkillsFS) (m : Manifest) (x : String) : Prop :=
  ∃ pat ∈ m.always, x ∈ resolve_glob_patterns fs [pat]

/-- Spec-side description of the extension mechanism (the manifest is a JSON
dict, so at most one rule per extension: the first association). -/
def mechExt (fs : SkillsFS) (m : Manifest) (fp x : String) : Prop :=
  ∃ pr, m.extensions.find? (fun pr => pr.1 = lowerStr (pathSuffix fp)) = some pr ∧
    x ∈ resolve_glob_patterns fs pr.2

/-- Spec-side description of the path-glob mechanism. -/
def mechPath (fs : SkillsFS) (m : Manifest) (fp x : String) : Prop :=
  ∃ pr ∈ m.paths, fnmatchB fp pr.1 = true ∧ x ∈ resolve_glob_patterns fs pr.2

/-- Spec-side description of the content-hint mechanism (active only when the
target file has readable, non-empty content). -/
def mechHint (fs : SkillsFS) (m : Manifest) (fp x : String) : Prop :=
  fs.contentSample fp ≠ "" ∧
    ∃ pr ∈ m.content_hints, reSearch pr.1 (fs.contentSample fp) = true ∧
      x ∈ resolve_glob_patterns fs pr.2

/-- Helper: membership in one `addMD` batch. -/
theorem mem_addMD (x : String) (files : List String) :
    ∀ acc, x ∈ addMD acc files ↔ x ∈ acc ∨ (x ∈ files ∧ pathSuffix x = ".md") := by
  induction files with
  | nil => intro acc; simp [addMD]
  | cons f rest ih =>
    intro acc
    simp only [addMD]
    rw [ih]
    by_cases hmd : pathSuffix f = ".md" <;> by_cases hin : f ∈ acc <;>
      simp [hmd, hin, List.mem_cons] <;> aesop

/-- Helper: `addMD` preserves freedom from duplicates. -/
theorem nodup_addMD (files : List String) :
    ∀ acc : List String, acc.Nodup → (addMD acc files).Nodup := by
  induction files with
  | nil => intro acc h; simpa [addMD] using h
  | cons f rest ih =>
    intro acc h
    simp only [addMD]
    apply ih
    split
    · split
      · exact h
      · exact List.Nodup.cons (by assumption) h
    · exact h

/-- Helper: membership after the always-loaded phase. -/
theorem mem_phaseAlways (fs : SkillsFS) (x : String) (pats : List String) :
    ∀ acc, x ∈ phaseAlways fs acc pats ↔
      x ∈ acc ∨ ((∃ pat ∈ pats, x ∈ resolve_glob_patterns fs [pat]) ∧ pathSuffix x = ".md") := by
  induction pats with
  | nil => intro acc; simp [phaseAlways]
  | cons p rest ih =>
    intro acc
    simp only [phaseAlways]
    rw [ih, mem_addMD]
    aesop

/-- Helper: the always-loaded phase preserves freedom from duplicates. -/
theorem nodup_phaseAlways (fs : SkillsFS) (pats : List String) :
    ∀ acc : List String, acc.Nodup → (phaseAlways fs acc pats).Nodup := by
  induction pats with
  | nil => intro acc h; simpa [phaseAlways] using h
  | cons p rest ih =>
    intro acc h
    exact ih _ (nodup_addMD _ _ h)

/-- Helper: membership after the path-glob phase. -/
theorem mem_phasePaths (fs : SkillsFS) (fp x : String) (l : List (String × List String)) :
    ∀ acc, x ∈ phasePaths fs fp acc l ↔
      x ∈ acc ∨ ((∃ pr ∈ l, fnmatchB fp pr.1 = true ∧ x ∈ resolve_glob_patterns fs pr.2) ∧
        pathSuffix x = ".md") := by
  induction l with
  | nil => intro acc; simp [phasePaths]
  | cons pr rest ih =>
    intro acc
    simp only [phasePaths]
    rw [ih]
    by_cases hm : fnmatchB fp pr.1 = true
    · rw [if_pos hm, mem_addMD]
      aesop
    · rw [if_neg hm]
      aesop

/-- Helper: the path-glob phase preserves freedom from duplicates. -/
theorem nodup_phasePaths (fs : SkillsFS) (fp : String) (l : List (String × List String)) :
    ∀ acc : List String, acc.Nodup → (phasePaths fs fp acc l).Nodup := by
  induction l with
  | nil => intro acc h; simpa [phasePaths] using h
  | cons pr rest ih =>
    intro acc h
    apply ih
    split
    · exact nodup_addMD _ _ h
    · exact h

/-- Helper: membership after the content-hint phase. -/
theorem mem_phaseHints (fs : SkillsFS) (content x : String) (l : List (RE × List String)) :
    ∀ acc, x ∈ phaseHints fs content acc l ↔
      x ∈ acc ∨ ((∃ pr ∈ l, reSearch pr.1 content = true ∧ x ∈ resolve_glob_patterns fs pr.2) ∧
        pathSuffix x = ".md") := by
  induction l with
  | nil => intro acc; simp [phaseHints]
  | cons pr rest ih =>
    intro acc
    simp only [phaseHints]
    rw [ih]
    by_cases hm : reSearch pr.1 content = true
    · rw [if_pos hm, mem_addMD]
      aesop
    · rw [if_neg hm]
      aesop

/-- Helper: the content-hint phase preserves freedom from duplicates. -/
theorem nodup_phaseHints (fs : SkillsFS) (content : String) (l : List (RE × List String)) :
    ∀ acc : List String, acc.Nodup → (phaseHints fs content acc l).Nodup := by
  induction l with
  | nil => intro acc h; simpa [phaseHints] using h
  | cons pr rest ih =>
    intro acc h
    apply ih
    split
    · exact nodup_addMD _ _ h
    · exact h

/-- Claim C8: for every filesystem, manifest and target path the resolver
returns the union of the matches of the four selection mechanisms (always,
extension, path glob, content hint), restricted to `.md` files, with
duplicates removed and in sorted order; and `main` never rejects — with a
path argument present it always returns 0. -/
theorem C8_thm (fs : SkillsFS) (m : Manifest) (fp : String) :
    (resolve_skills fs m fp).Sorted (· ≤ ·) ∧
    (resolve_skills fs m fp).Nodup ∧
    (∀ x, x ∈ resolve_skills fs m fp ↔
      (mechAlways fs m x ∨ mechExt fs m fp x ∨ mechPath fs m fp x ∨ mechHint fs m fp x) ∧
        pathSuffix x = ".md") ∧
    (∀ a p rest fs2 m2, (resolverMain (a :: p :: rest) fs2 m2).1 = 0) := by
  have hs4 : ∀ x, x ∈ resolve_skills fs m fp ↔
      (mechAlways fs m x ∨ mechExt fs m fp x ∨ mechPath fs m fp x ∨ mechHint fs m fp x) ∧
        pathSuffix x = ".md" := by
    intro x
    simp only [resolve_skills]
    rw [List.Perm.mem_iff (List.perm_insertionSort _ _)]
    by_cases hcont : fs.contentSample fp ≠ ""
    · rw [if_pos hcont, mem_phaseHints, mem_phasePaths]
      cases hfind : m.extensions.find? (fun pr => pr.1 = lowerStr (pathSuffix fp)) with
      | none =>
        rw [mem_phaseAlways]
        unfold mechAlways mechExt mechPath mechHint
        rw [hfind]
        aesop
      | some pr0 =>
        rw [mem_addMD, mem_phaseAlways]
        unfold mechAlways mechExt mechPath mechHint
        rw [hfind]
        aesop
    · rw [if_neg hcont, mem_phasePaths]
      cases hfind : m.extensions.find? (fun pr => pr.1 = lowerStr (pathSuffix fp)) with
      | none =>
        rw [mem_phaseAlways]
        unfold mechAlways mechExt mechPath mechHint
        rw [hfind]
        aesop
      | some pr0 =>
        rw [mem_addMD, mem_phaseAlways]
        unfold mechAlways mechExt mechPath mechHint
        rw [hfind]
        aesop
  refine ⟨List.sorted_insertionSort _ _, ?_, hs4, fun a p rest fs2 m2 => rfl⟩
  · simp only [resolve_skills]
    apply (List.Perm.nodup_iff (List.perm_insertionSort _ _)).mpr
    split
    · apply nodup_phaseHints
      apply nodup_phasePaths
      split
      · apply nodup_addMD
        apply nodup_phaseAlways
        exact List.nodup_nil
      · apply nodup_phaseAlways
        exact List.nodup_nil
    · apply nodup_phasePaths
      split
      · apply nodup_addMD
        apply nodup_phaseAlways
        exact List.nodup_nil
      · apply nodup_phaseAlways
        exact List.nodup_nil
